import Mathlib

/-!
Verification of the indicator-and-signal engine of `crypto_predictor.py`.

The program consumes OHLCV bars as a pandas DataFrame, extends the frame
with indicator columns (`compute_indicators`), evaluates long/short
conditions on the latest row (`check_signals`) and derives take-profit /
stop-loss targets in `main`.

Embedding conventions:
* machine floats are embedded as `ℚ`; a pandas `NaN` cell is `none`
  (`Option ℚ`), matching the missing-value semantics the script relies on
  (every comparison against `NaN` is `False` in Python);
* a pandas column that is absent from the frame is modelled where it
  matters (the `atr` column checked by `main` at line 298) as an
  `Option (List ℚ)` field;
* `Series.ewm(adjust=False).mean()` and `Series.rolling(window=w)`
  aggregations are embedded with their documented pandas semantics:
  `min_periods` many observations (non-`NaN` cells) are required inside
  the window before a value is emitted, `adjust=False` is the seeded
  first-order recurrence;
* the `ta` library indicators (MACD, RSI, ATR) are embedded following the
  published implementation of `ta` 0.x (`ta.trend.MACD`,
  `ta.momentum.RSIIndicator`, `ta.volatility.AverageTrueRange`);
* lines 146-150 of the source are not syntactically valid Python (the
  `np.where(` opened at line 146 is never closed, and its condition
  argument was mangled into `(df[...] - 0`), so the module as shipped
  fails to parse; the stochastic-RSI cell is therefore the one piece of
  the pipeline that is modelled from the spec instead of from the source.
-/

attribute [local semireducible] Rat.add Rat.mul Rat.sub Rat.inv

/-- Configuration record of the script: the default dictionary built in
`load_parameters` (lines 32-57), restricted to the numeric keys the
indicator pipeline and the evaluator read.  Window lengths are `ℕ`,
thresholds and multipliers are `ℚ`. -/
structure Params where
  emaFastLen : ℕ
  emaSlowLen : ℕ
  rsiLen : ℕ
  stochLen : ℕ
  bbLen : ℕ
  bbMult : ℚ
  macd_fast : ℕ
  macd_slow : ℕ
  macd_signal : ℕ
  rsi_threshold_long : ℚ
  rsi_threshold_short : ℚ
  volAvg_window : ℕ
  stoch_smooth_k : ℕ
  stoch_smooth_d : ℕ
  take_profit_pct : ℚ
  stop_loss_pct : ℚ
  leverage : ℚ
  take_profit_atr_multiplier : ℚ
  stop_loss_atr_multiplier : ℚ
deriving Repr, DecidableEq

/-- Default parameter values from `load_parameters` (lines 32-57). -/
def defaultParams : Params where
  emaFastLen := 50
  emaSlowLen := 200
  rsiLen := 14
  stochLen := 14
  bbLen := 20
  bbMult := 2
  macd_fast := 12
  macd_slow := 26
  macd_signal := 9
  rsi_threshold_long := 55
  rsi_threshold_short := 45
  volAvg_window := 20
  stoch_smooth_k := 3
  stoch_smooth_d := 3
  take_profit_pct := 4/100
  stop_loss_pct := 2/100
  leverage := 10
  take_profit_atr_multiplier := 2
  stop_loss_atr_multiplier := 1

/-- One OHLCV observation, a row of the frame built in `fetch_data`
(line 106).  `open` is a Lean keyword, hence `openP`. -/
structure Bar where
  timestamp : ℤ
  openP : ℚ
  high : ℚ
  low : ℚ
  close : ℚ
  volume : ℚ
deriving Repr, DecidableEq

/-- The DataFrame: the six base columns created by `fetch_data` plus every
indicator column `compute_indicators` assigns.  Indicator cells are
`Option ℚ` (`none` = `NaN`).  The `atr` column is `Option (List ℚ)`
because `main` (line 298) explicitly tests for its absence. -/
structure Frame where
  timestamp : List ℤ
  openP : List ℚ
  high : List ℚ
  low : List ℚ
  close : List ℚ
  volume : List ℚ
  emaFast : List (Option ℚ) := []
  emaSlow : List (Option ℚ) := []
  macdLine : List (Option ℚ) := []
  signalLine : List (Option ℚ) := []
  macdHist : List (Option ℚ) := []
  rsi : List (Option ℚ) := []
  rsi_min : List (Option ℚ) := []
  rsi_max : List (Option ℚ) := []
  stochRSI : List (Option ℚ) := []
  k : List (Option ℚ) := []
  d : List (Option ℚ) := []
  basis : List (Option ℚ) := []
  std : List (Option ℚ) := []
  upperBB : List (Option ℚ) := []
  lowerBB : List (Option ℚ) := []
  volAvg : List (Option ℚ) := []
  prevHigh : List (Option ℚ) := []
  prevLow : List (Option ℚ) := []
  bullishBreakout : List Bool := []
  bearishBreakdown : List Bool := []
  atr : Option (List ℚ) := none
deriving Repr, DecidableEq

/-- The frame `fetch_data` returns for a list of bars (line 106): the six
base columns, no indicator columns yet. -/
def mkFrame (bars : List Bar) : Frame where
  timestamp := bars.map Bar.timestamp
  openP := bars.map Bar.openP
  high := bars.map Bar.high
  low := bars.map Bar.low
  close := bars.map Bar.close
  volume := bars.map Bar.volume

/-! ### Library primitives: pandas `ewm` and `rolling` -/

/-- Worker for `Series.ewm(adjust=False, min_periods=minp).mean()`:
`prev` is the running mean (absent before the first observation), `cnt`
the number of observations (non-`NaN` cells) consumed so far.  A `NaN`
cell emits the carried mean (masked by `min_periods`) and leaves the
state unchanged; an observation updates the mean by
`m = alpha * x + (1 - alpha) * prev`. -/
def ewmGo (alpha : ℚ) (minp : ℕ) : Option ℚ → ℕ → List (Option ℚ) → List (Option ℚ)
  | _, _, [] => []
  | prev, cnt, none :: rest =>
      (match prev with
       | some p => if minp ≤ cnt then some p else none
       | none => none) :: ewmGo alpha minp prev cnt rest
  | prev, cnt, some x :: rest =>
      let m := match prev with
        | none => x
        | some p => alpha * x + (1 - alpha) * p
      (if minp ≤ cnt + 1 then some m else none) :: ewmGo alpha minp (some m) (cnt + 1) rest

/-- `Series.ewm(..., adjust=False, min_periods=minp).mean()`. -/
def ewmMean (alpha : ℚ) (minp : ℕ) (xs : List (Option ℚ)) : List (Option ℚ) :=
  ewmGo alpha minp none 0 xs

/-- The trailing window pandas `rolling(window=w)` sees at position `i`:
the last `min (i+1) w` elements among the first `i+1`. -/
def windowAt (w : ℕ) (xs : List (Option ℚ)) (i : ℕ) : List (Option ℚ) :=
  (xs.take (i + 1)).drop (i + 1 - w)

/-- `Series.rolling(window=w).agg(...)` with the default
`min_periods = w`: position `i` carries a value exactly when the window
holds `w` observations, i.e. the window is full and `NaN`-free. -/
def rollingApply (w : ℕ) (f : List ℚ → ℚ) (xs : List (Option ℚ)) : List (Option ℚ) :=
  (List.range xs.length).map fun i =>
    let win := windowAt w xs i
    if w ≤ i + 1 ∧ win.all Option.isSome then some (f (win.filterMap id)) else none

def minList : List ℚ → ℚ
  | [] => 0
  | x :: xs => xs.foldl min x

def maxList : List ℚ → ℚ
  | [] => 0
  | x :: xs => xs.foldl max x

def meanList (xs : List ℚ) : ℚ := xs.sum / xs.length

/-- Sample variance (pandas `ddof=1`). -/
def varList (xs : List ℚ) : ℚ :=
  ((xs.map fun x => (x - meanList xs) ^ 2).sum) / ((xs.length : ℚ) - 1)

/-- Square root of the sample variance.  The source computes a float
square root; only the definedness of this column is ever consumed by a
theorem, so the rational approximation `Rat.sqrt` stands in for it. -/
def stdList (xs : List ℚ) : ℚ := Rat.sqrt (varList xs)

/-- `Series.shift(1)`: first cell `NaN`, the rest moved down one row. -/
def shiftOne (xs : List ℚ) : List (Option ℚ) :=
  match xs with
  | [] => []
  | _ :: _ => none :: xs.dropLast.map some

/-- `NaN`-propagating cell subtraction of two columns. -/
def osub : Option ℚ → Option ℚ → Option ℚ
  | some a, some b => some (a - b)
  | _, _ => none
/-! ### Library primitives: the `ta` indicators -/

/-- `ta.trend.MACD` and `ta.momentum.RSIIndicator` compute their EMAs via
`series.ewm(span=periods, min_periods=periods, adjust=False).mean()`. -/
def taEma (span : ℕ) (xs : List (Option ℚ)) : List (Option ℚ) :=
  ewmMean (2 / ((span : ℚ) + 1)) span xs

/-- Source lines 125-126: `close.ewm(span=span, adjust=False).mean()`
(pandas default `min_periods=0`). -/
def pdEwm (span : ℕ) (xs : List ℚ) : List (Option ℚ) :=
  ewmMean (2 / ((span : ℚ) + 1)) 0 (xs.map some)

/-- Worker for `Series.diff(1)` once the previous value is known. -/
def diffGo (prev : ℚ) : List ℚ → List (Option ℚ)
  | [] => []
  | x :: rest => some (x - prev) :: diffGo x rest

/-- `Series.diff(1)`: first cell `NaN`, then pairwise differences. -/
def diffvals : List ℚ → List (Option ℚ)
  | [] => []
  | x :: rest => none :: diffGo x rest

/-- `diff.where(diff > 0, 0.0)` of the RSI code: a `NaN` difference fails
the comparison and is replaced by `0.0`, so every cell is an observation. -/
def upDir (closes : List ℚ) : List (Option ℚ) :=
  (diffvals closes).map fun dq =>
    some (match dq with
      | some v => if 0 < v then v else 0
      | none => 0)

/-- `-diff.where(diff < 0, 0.0)` of the RSI code. -/
def downDir (closes : List ℚ) : List (Option ℚ) :=
  (diffvals closes).map fun dq =>
    some (match dq with
      | some v => if v < 0 then -v else 0
      | none => 0)

/-- The final cell of `ta.momentum.RSIIndicator.rsi`:
`np.where(emadn == 0, 100, 100 - (100 / (1 + emaup / emadn)))`. -/
def rsiCell : Option ℚ → Option ℚ → Option ℚ
  | some u, some dn => some (if dn = 0 then 100 else 100 - 100 / (1 + u / dn))
  | _, _ => none

/-- `ta.momentum.RSIIndicator(close, window=w).rsi()` (source line 140):
Wilder smoothing (`alpha = 1/w`, `min_periods = w`) of the up and down
moves, combined by `rsiCell`. -/
def rsiCol (w : ℕ) (closes : List ℚ) : List (Option ℚ) :=
  let emaup := ewmMean (1 / (w : ℚ)) w (upDir closes)
  let emadn := ewmMean (1 / (w : ℚ)) w (downDir closes)
  List.zipWith rsiCell emaup emadn

/-- True range of one bar given the previous close (`NaN` for the first
bar, in which case `max(axis=1)` reduces to `high - low`). -/
def trCell (h l : ℚ) (pc : Option ℚ) : ℚ :=
  match pc with
  | none => h - l
  | some c => max (h - l) (max |h - c| |l - c|)

def trGo : List ℚ → List ℚ → List (Option ℚ) → List ℚ
  | h :: hs, l :: ls, p :: ps => trCell h l p :: trGo hs ls ps
  | _, _, _ => []

/-- The true-range series of `ta.volatility.AverageTrueRange`. -/
def trueRange (high low close : List ℚ) : List ℚ :=
  trGo high low (shiftOne close)

/-- Wilder recursion of `ta` ATR: `atr[i] = (atr[i-1]*(w-1) + tr[i]) / w`. -/
def atrGo (w : ℕ) (prev : ℚ) : List ℚ → List ℚ
  | [] => []
  | t :: rest =>
      let a := (prev * ((w : ℚ) - 1) + t) / (w : ℚ)
      a :: atrGo w a rest

/-- `ta.volatility.AverageTrueRange(...).average_true_range()` for a
series of at least `w` bars: the `ta` implementation fills a zero buffer,
seeds position `w - 1` with the mean of the first `w` true ranges and
then applies the Wilder recursion.  (For fewer than `w` bars the `ta`
code writes past the end of its buffer and raises `IndexError`; the
caller below models that path.) -/
def taATR (w : ℕ) (high low close : List ℚ) : List ℚ :=
  let tr := trueRange high low close
  let seed := meanList (tr.take w)
  List.replicate (w - 1) 0 ++ seed :: atrGo w seed (tr.drop w)

/-! ### The stochastic-RSI cell (modelled from the spec) -/

/-- Modelled from the spec: the raw stochastic-RSI assignment of source
lines 146-150 is missing, because the `np.where(` call opened at line 146
is never closed (the module fails to parse; the condition argument was
mangled into `(df[...] - 0`).  Spec section 4.1 defines the intended
cell: raw stochRSI is `0` when `rsi_max == rsi_min` (division-by-zero
guard), else `(rsi - rsi_min) / (rsi_max - rsi_min)`; a `NaN` input
propagates. -/
def stochRSICell (r rmin rmax : Option ℚ) : Option ℚ :=
  match rmin, rmax with
  | some a, some b =>
      if b - a = 0 then some 0
      else
        match r with
        | some x => some ((x - a) / (b - a))
        | none => none
  | _, _ => none

def zip3With (f : Option ℚ → Option ℚ → Option ℚ → Option ℚ) :
    List (Option ℚ) → List (Option ℚ) → List (Option ℚ) → List (Option ℚ)
  | x :: xs, y :: ys, z :: zs => f x y z :: zip3With f xs ys zs
  | _, _, _ => []

/-! ### compute_indicators -/

/-- Bollinger upper-band cell: `basis + bbMult * std` (line 157). -/
def bbUpperCell (m : ℚ) : Option ℚ → Option ℚ → Option ℚ
  | some b, some s => some (b + m * s)
  | _, _ => none

/-- Bollinger lower-band cell: `basis - bbMult * std` (line 158). -/
def bbLowerCell (m : ℚ) : Option ℚ → Option ℚ → Option ℚ
  | some b, some s => some (b - m * s)
  | _, _ => none

/-- `close > prevHigh` (line 166); a `NaN` comparison is `False`. -/
def bullCell (c : ℚ) : Option ℚ → Bool
  | some p => decide (p < c)
  | none => false

/-- `close < prevLow` (line 167); a `NaN` comparison is `False`. -/
def bearCell (c : ℚ) : Option ℚ → Bool
  | some p => decide (c < p)
  | none => false

/-- `compute_indicators` (source lines 117-182).  The body extends the
frame column by column exactly as the script does; the whole body runs
inside `try/except Exception: return df`, so an internal exception
returns the frame with the columns assigned before the failing
statement.  With the stochastic-RSI cell modelled from the spec the only
failing statement left is the `ta` ATR constructor (line 170), whose
buffer seeding raises `IndexError` when the series is shorter than its
fixed 14-bar window: in that case the frame is returned without an `atr`
column. -/
def computeIndicators (p : Params) (df : Frame) : Frame :=
  let macdL := List.zipWith osub (taEma p.macd_fast (df.close.map some))
      (taEma p.macd_slow (df.close.map some))
  let sigL := taEma p.macd_signal macdL
  let rsiC := rsiCol p.rsiLen df.close
  let rsiMinC := rollingApply p.stochLen minList rsiC
  let rsiMaxC := rollingApply p.stochLen maxList rsiC
  let stochC := zip3With stochRSICell rsiC rsiMinC rsiMaxC
  let kC := rollingApply p.stoch_smooth_k meanList stochC
  let basisC := rollingApply p.bbLen meanList (df.close.map some)
  let stdC := rollingApply p.bbLen stdList (df.close.map some)
  let prevHighC := shiftOne df.high
  let prevLowC := shiftOne df.low
  let base : Frame :=
    { df with
      emaFast := pdEwm p.emaFastLen df.close
      emaSlow := pdEwm p.emaSlowLen df.close
      macdLine := macdL
      signalLine := sigL
      macdHist := List.zipWith osub macdL sigL
      rsi := rsiC
      rsi_min := rsiMinC
      rsi_max := rsiMaxC
      stochRSI := stochC
      k := kC
      d := rollingApply p.stoch_smooth_d meanList kC
      basis := basisC
      std := stdC
      upperBB := List.zipWith (bbUpperCell p.bbMult) basisC stdC
      lowerBB := List.zipWith (bbLowerCell p.bbMult) basisC stdC
      volAvg := rollingApply p.volAvg_window meanList (df.volume.map some)
      prevHigh := prevHighC
      prevLow := prevLowC
      bullishBreakout := List.zipWith bullCell df.close prevHighC
      bearishBreakdown := List.zipWith bearCell df.close prevLowC }
  if df.close.length < 14 then base
  else { base with atr := some (taATR 14 df.high df.low df.close) }

/-! ### check_signals and the signal/target evaluator of main -/

/-- Last cell of an indicator column, as `df.iloc[-1][col]` reads it:
an empty or absent column behaves like a missing value (in the script a
`KeyError` there is caught by the `except` and yields the same
all-`False` outcome as a `NaN` comparison). -/
def olastQ (xs : List (Option ℚ)) : Option ℚ :=
  (xs.getLast?).getD none

/-- Python comparison `b > a` lifted to possibly-`NaN` operands: any
comparison against `NaN` is `False`. -/
def ogt : Option ℚ → Option ℚ → Bool
  | some a, some b => decide (b < a)
  | _, _ => false

/-- Python comparison `a < b` lifted to possibly-`NaN` operands. -/
def olt : Option ℚ → Option ℚ → Bool
  | some a, some b => decide (a < b)
  | _, _ => false

/-- The values of the latest frame row that `check_signals` reads
(`latest = df.iloc[-1]`, line 197). -/
structure IndicatorRow where
  close : ℚ
  volume : ℚ
  emaFast : Option ℚ
  emaSlow : Option ℚ
  macdLine : Option ℚ
  signalLine : Option ℚ
  macdHist : Option ℚ
  rsi : Option ℚ
  k : Option ℚ
  d : Option ℚ
  basis : Option ℚ
  volAvg : Option ℚ
  bullishBreakout : Bool
  bearishBreakdown : Bool
deriving Repr, DecidableEq

/-- `df.iloc[-1]` restricted to the columns `check_signals` reads;
`none` when the frame has no rows. -/
def latestRow (f : Frame) : Option IndicatorRow :=
  match f.close.getLast? with
  | none => none
  | some c => some {
      close := c
      volume := (f.volume.getLast?).getD 0
      emaFast := olastQ f.emaFast
      emaSlow := olastQ f.emaSlow
      macdLine := olastQ f.macdLine
      signalLine := olastQ f.signalLine
      macdHist := olastQ f.macdHist
      rsi := olastQ f.rsi
      k := olastQ f.k
      d := olastQ f.d
      basis := olastQ f.basis
      volAvg := olastQ f.volAvg
      bullishBreakout := (f.bullishBreakout.getLast?).getD false
      bearishBreakdown := (f.bearishBreakdown.getLast?).getD false }

/-- `longCondition` of `check_signals` (source lines 199-209). -/
def longCondition (p : Params) (r : IndicatorRow) : Bool :=
  ogt (some r.close) r.emaFast &&
  ogt (some r.close) r.emaSlow &&
  ogt r.macdLine r.signalLine &&
  ogt r.macdHist (some 0) &&
  ogt r.rsi (some p.rsi_threshold_long) &&
  ogt r.k r.d &&
  ogt (some r.close) r.basis &&
  ogt (some r.volume) r.volAvg &&
  r.bullishBreakout

/-- `shortCondition` of `check_signals` (source lines 211-221). -/
def shortCondition (p : Params) (r : IndicatorRow) : Bool :=
  olt (some r.close) r.emaFast &&
  olt (some r.close) r.emaSlow &&
  olt r.macdLine r.signalLine &&
  olt r.macdHist (some 0) &&
  olt r.rsi (some p.rsi_threshold_short) &&
  olt r.k r.d &&
  olt (some r.close) r.basis &&
  ogt (some r.volume) r.volAvg &&
  r.bearishBreakdown

/-- `check_signals` (source lines 187-227): `(False, False)` for a `None`
or empty frame, otherwise the two conditions on the latest row.  Any
exception inside the body is caught and also yields `(False, False)`. -/
def check_signals (p : Params) (df : Option Frame) : Bool × Bool :=
  match df with
  | none => (false, false)
  | some f =>
      match latestRow f with
      | none => (false, false)
      | some latest => (longCondition p latest, shortCondition p latest)

/-- Trade direction of an emitted alert. -/
inductive Verdict
  | long
  | short
deriving Repr, DecidableEq

/-- The numbers an alert of `main` carries: take-profit and stop-loss
prices plus the leveraged expected-return percentage printed in the
profit formula. -/
structure TradeSignal where
  verdict : Verdict
  takeProfit : ℚ
  stopLoss : ℚ
  expectedReturnPct : ℚ
deriving Repr, DecidableEq

/-- The `if longSignal: ... elif shortSignal: ... else` dispatch of
`main` (source lines 303-334), including the target arithmetic of lines
304-305 and 320-321 and the profit formulas of lines 306-309 and
322-325. -/
def signalDispatch (longSignal shortSignal : Bool)
    (last_close atr_value tpMult slMult lev : ℚ) : Option TradeSignal :=
  if longSignal then
    let take_profit := last_close + atr_value * tpMult
    let stop_loss := last_close - atr_value * slMult
    some ⟨Verdict.long, take_profit, stop_loss,
      ((take_profit - last_close) / last_close) * lev * 100⟩
  else if shortSignal then
    let take_profit := last_close - atr_value * tpMult
    let stop_loss := last_close + atr_value * slMult
    some ⟨Verdict.short, take_profit, stop_loss,
      ((last_close - take_profit) / last_close) * lev * 100⟩
  else none

/-- The per-symbol evaluation of `main` after `compute_indicators`
(source lines 286-334): read the signals and the last close, skip the
symbol when the price is not strictly positive (line 293), select the
ATR value with the 2-percent-of-close fallback when the frame has no
`atr` column (line 298), and dispatch.  `none` means no alert is sent. -/
def mainEval (p : Params) (f : Frame) : Option TradeSignal :=
  let sig := check_signals p (some f)
  let last_close := (f.close.getLast?).getD 0
  if last_close ≤ 0 then none
  else
    let atr_value :=
      match f.atr with
      | some col => (col.getLast?).getD 0
      | none => last_close * (2 / 100)
    signalDispatch sig.1 sig.2 last_close atr_value
      p.take_profit_atr_multiplier p.stop_loss_atr_multiplier p.leverage

/-! ### Spec-side definitions used by refinement claims -/

/-- Failure taxonomy of the spec (sections 6 and 7). -/
inductive CIError
  | invalidInput
deriving Repr, DecidableEq

/-- Boolean test that a timestamp column is strictly increasing. -/
def strictlyIncreasing : List ℤ → Bool
  | [] => true
  | [_] => true
  | a :: b :: rest => decide (a < b) && strictlyIncreasing (b :: rest)

/-- Modelled from the spec (section 6), for comparison with the source
function: `computeIndicators(barSeries, config)` is required to fail
with an `InvalidInput` condition on malformed input (empty series,
non-monotonic timestamps) instead of returning results.  The source
contains no such validation. -/
def computeIndicatorsSpec (p : Params) (f : Frame) : Except CIError Frame :=
  if f.close.isEmpty || !(strictlyIncreasing f.timestamp) then
    Except.error CIError.invalidInput
  else
    Except.ok (computeIndicators p f)

/-- Modelled from the spec (section 4.1, EMA), for comparison with the
`ewm` columns of the source: the recurrence worker,
`m = alpha * c + (1 - alpha) * prev`. -/
def emaRecGo (alpha prev : ℚ) : List ℚ → List ℚ
  | [] => []
  | c :: rest =>
      let m := alpha * c + (1 - alpha) * prev
      m :: emaRecGo alpha m rest

/-- Modelled from the spec (section 4.1, EMA): the exponential moving
average seeded by the first available close, each subsequent value
`ema[i] = alpha * close[i] + (1 - alpha) * ema[i-1]`. -/
def emaRec (alpha : ℚ) : List ℚ → List ℚ
  | [] => []
  | c :: rest => c :: emaRecGo alpha c rest

/-! ### Predicates and concrete fixtures used by the theorems -/

/-- A latest row missing any of the indicator fields the two conditions
read. -/
def rowMissing (r : IndicatorRow) : Prop :=
  r.emaFast = none ∨ r.emaSlow = none ∨ r.macdLine = none ∨ r.signalLine = none ∨
  r.macdHist = none ∨ r.rsi = none ∨ r.k = none ∨ r.d = none ∨
  r.basis = none ∨ r.volAvg = none

instance (r : IndicatorRow) : Decidable (rowMissing r) := by
  unfold rowMissing
  infer_instance

/-- The latest-row view of a frame whose required indicator cells are not
all available. -/
def frameMissing (f : Frame) : Prop :=
  olastQ f.emaFast = none ∨ olastQ f.emaSlow = none ∨ olastQ f.macdLine = none ∨
  olastQ f.signalLine = none ∨ olastQ f.macdHist = none ∨ olastQ f.rsi = none ∨
  olastQ f.k = none ∨ olastQ f.d = none ∨ olastQ f.basis = none ∨
  olastQ f.volAvg = none

instance (f : Frame) : Decidable (frameMissing f) := by
  unfold frameMissing
  infer_instance

/-- Every cell of the column is the missing-value marker. -/
def allNone (xs : List (Option ℚ)) : Prop := ∀ x ∈ xs, x = none

/-- Constant-price fixture: `n` bars at price 1, volume 1. -/
def constBars (n : ℕ) : List Bar :=
  (List.range n).map fun i =>
    { timestamp := (i : ℤ), openP := 1, high := 1, low := 1, close := 1, volume := 1 }

/-- Two-bar fixture, shorter than every rolling window of the default
configuration. -/
def bars2 : List Bar :=
  [{ timestamp := 0, openP := 1, high := 2, low := 1, close := 2, volume := 3 },
   { timestamp := 1, openP := 2, high := 3, low := 2, close := 3, volume := 4 }]

/-- Three-bar fixture for the EMA recurrence. -/
def bars3 : List Bar :=
  [{ timestamp := 0, openP := 1, high := 2, low := 1, close := 2, volume := 3 },
   { timestamp := 1, openP := 2, high := 3, low := 2, close := 3, volume := 4 },
   { timestamp := 2, openP := 3, high := 5, low := 3, close := 4, volume := 5 }]

/-- Fourteen bars whose timestamps are not monotonically increasing
(position 7 carries timestamp 0 again): malformed input in the sense of
spec section 6. -/
def badTsBars : List Bar :=
  (List.range 14).map fun i =>
    { timestamp := if i = 7 then 0 else (i : ℤ), openP := (i : ℚ) + 1,
      high := (i : ℚ) + 2, low := (i : ℚ) + 1, close := (i : ℚ) + 1,
      volume := (i : ℚ) + 1 }

/-- A frame with no rows (all base columns empty). -/
def emptyFrame : Frame :=
  { timestamp := [], openP := [], high := [], low := [], close := [], volume := [] }

/-- One-row frame on which every clause of the long condition holds
(spec section 8 scenario), with no `atr` column. -/
def longRowFrame : Frame where
  timestamp := [0]
  openP := [100]
  high := [120]
  low := [100]
  close := [110]
  volume := [200]
  emaFast := [some 100]
  emaSlow := [some 90]
  macdLine := [some 2]
  signalLine := [some 1]
  macdHist := [some 1]
  rsi := [some 60]
  rsi_min := [some 40]
  rsi_max := [some 70]
  stochRSI := [some (2/3)]
  k := [some (7/10)]
  d := [some (1/2)]
  basis := [some 100]
  std := [some 1]
  upperBB := [some 102]
  lowerBB := [some 98]
  volAvg := [some 100]
  prevHigh := [some 105]
  prevLow := [some 95]
  bullishBreakout := [true]
  bearishBreakdown := [false]
  atr := none

/-- The `longRowFrame` with the `d` column lost: its latest row misses a
required indicator field. -/
def missingRowFrame : Frame :=
  { longRowFrame with d := [] }

/-- The alert the dispatch produces for a long signal at close 100,
ATR 2, multipliers 2 and 1, leverage 10. -/
def sigOut : TradeSignal := ⟨Verdict.long, 104, 98, 40⟩

/-- The alert `mainEval` produces on `longRowFrame` (ATR column absent,
so the 2-percent fallback applies): close 110, volatility 11/5. -/
def fallbackOut : TradeSignal := ⟨Verdict.long, 572/5, 539/5, 40⟩

/-! ### Helper lemmas: lengths -/

theorem ewmGo_length (alpha : ℚ) (minp : ℕ) :
    ∀ (xs : List (Option ℚ)) (prev : Option ℚ) (cnt : ℕ),
      (ewmGo alpha minp prev cnt xs).length = xs.length := by
  intro xs
  induction xs with
  | nil => intro prev cnt; rfl
  | cons x rest ih =>
      intro prev cnt
      cases x with
      | none => simp [ewmGo, ih]
      | some v => simp [ewmGo, ih]

theorem ewmMean_length (alpha : ℚ) (minp : ℕ) (xs : List (Option ℚ)) :
    (ewmMean alpha minp xs).length = xs.length :=
  ewmGo_length alpha minp xs none 0

theorem pdEwm_length (span : ℕ) (xs : List ℚ) :
    (pdEwm span xs).length = xs.length := by
  simp [pdEwm, ewmMean_length]

theorem taEma_length (span : ℕ) (xs : List (Option ℚ)) :
    (taEma span xs).length = xs.length := by
  simp [taEma, ewmMean_length]

theorem rollingApply_length (w : ℕ) (f : List ℚ → ℚ) (xs : List (Option ℚ)) :
    (rollingApply w f xs).length = xs.length := by
  simp [rollingApply]

theorem diffGo_length (prev : ℚ) (xs : List ℚ) :
    (diffGo prev xs).length = xs.length := by
  induction xs generalizing prev with
  | nil => rfl
  | cons x rest ih => simp [diffGo, ih]

theorem diffvals_length (xs : List ℚ) : (diffvals xs).length = xs.length := by
  cases xs with
  | nil => rfl
  | cons x rest => simp [diffvals, diffGo_length]

theorem upDir_length (xs : List ℚ) : (upDir xs).length = xs.length := by
  simp [upDir, diffvals_length]

theorem downDir_length (xs : List ℚ) : (downDir xs).length = xs.length := by
  simp [downDir, diffvals_length]

theorem rsiCol_length (w : ℕ) (xs : List ℚ) : (rsiCol w xs).length = xs.length := by
  simp [rsiCol, ewmMean_length, upDir_length, downDir_length]

theorem shiftOne_length (xs : List ℚ) : (shiftOne xs).length = xs.length := by
  cases xs with
  | nil => rfl
  | cons x rest => simp [shiftOne]

theorem zip3With_length (f : Option ℚ → Option ℚ → Option ℚ → Option ℚ) :
    ∀ (xs ys zs : List (Option ℚ)),
      (zip3With f xs ys zs).length = min xs.length (min ys.length zs.length) := by
  intro xs
  induction xs with
  | nil => intro ys zs; cases ys <;> cases zs <;> simp [zip3With]
  | cons x xt ih =>
      intro ys zs
      cases ys with
      | nil => simp [zip3With]
      | cons y yt =>
          cases zs with
          | nil => simp [zip3With]
          | cons z zt =>
              simp only [zip3With, List.length_cons, ih]
              omega

/-! ### Helper lemmas: rolling windows of a too-short series -/

/-- Rows of a rolling-`w` aggregation of a series shorter than `w` are
all missing. -/
theorem rollingApply_allNone (w : ℕ) (f : List ℚ → ℚ) (xs : List (Option ℚ))
    (h : xs.length < w) : ∀ y ∈ rollingApply w f xs, y = none := by
  intro y hy
  simp only [rollingApply, List.mem_map, List.mem_range] at hy
  obtain ⟨i, hi, hval⟩ := hy
  have : ¬(w ≤ i + 1 ∧ ((windowAt w xs i).all Option.isSome) = true) := by
    intro hcon
    omega
  rw [if_neg this] at hval
  exact hval.symm

theorem zipWith_upper_allNone (m : ℚ) :
    ∀ (as bs : List (Option ℚ)), (∀ a ∈ as, a = none) →
      ∀ y ∈ List.zipWith (bbUpperCell m) as bs, y = none := by
  intro as
  induction as with
  | nil => intro bs _ y hy; simp at hy
  | cons a at' ih =>
      intro bs ha y hy
      cases bs with
      | nil => simp at hy
      | cons b bt =>
          simp only [List.zipWith_cons_cons, List.mem_cons] at hy
          rcases hy with hy | hy
          · have : a = none := ha a (List.mem_cons_self a at')
            subst this
            subst hy
            cases b <;> rfl
          · exact ih bt (fun x hx => ha x (List.mem_cons_of_mem a hx)) y hy

theorem zipWith_lower_allNone (m : ℚ) :
    ∀ (as bs : List (Option ℚ)), (∀ a ∈ as, a = none) →
      ∀ y ∈ List.zipWith (bbLowerCell m) as bs, y = none := by
  intro as
  induction as with
  | nil => intro bs _ y hy; simp at hy
  | cons a at' ih =>
      intro bs ha y hy
      cases bs with
      | nil => simp at hy
      | cons b bt =>
          simp only [List.zipWith_cons_cons, List.mem_cons] at hy
          rcases hy with hy | hy
          · have : a = none := ha a (List.mem_cons_self a at')
            subst this
            subst hy
            cases b <;> rfl
          · exact ih bt (fun x hx => ha x (List.mem_cons_of_mem a hx)) y hy

/-! ### Helper lemmas: column projections of compute_indicators -/

theorem ci_emaFast (p : Params) (f : Frame) :
    (computeIndicators p f).emaFast = pdEwm p.emaFastLen f.close := by
  unfold computeIndicators
  split <;> rfl

theorem ci_emaSlow (p : Params) (f : Frame) :
    (computeIndicators p f).emaSlow = pdEwm p.emaSlowLen f.close := by
  unfold computeIndicators
  split <;> rfl

theorem ci_rsi (p : Params) (f : Frame) :
    (computeIndicators p f).rsi = rsiCol p.rsiLen f.close := by
  unfold computeIndicators
  split <;> rfl

theorem ci_rsi_min (p : Params) (f : Frame) :
    (computeIndicators p f).rsi_min
      = rollingApply p.stochLen minList (rsiCol p.rsiLen f.close) := by
  unfold computeIndicators
  split <;> rfl

theorem ci_rsi_max (p : Params) (f : Frame) :
    (computeIndicators p f).rsi_max
      = rollingApply p.stochLen maxList (rsiCol p.rsiLen f.close) := by
  unfold computeIndicators
  split <;> rfl

theorem ci_stochRSI (p : Params) (f : Frame) :
    (computeIndicators p f).stochRSI
      = zip3With stochRSICell (rsiCol p.rsiLen f.close)
          (rollingApply p.stochLen minList (rsiCol p.rsiLen f.close))
          (rollingApply p.stochLen maxList (rsiCol p.rsiLen f.close)) := by
  unfold computeIndicators
  split <;> rfl

theorem ci_k (p : Params) (f : Frame) :
    (computeIndicators p f).k
      = rollingApply p.stoch_smooth_k meanList (computeIndicators p f).stochRSI := by
  rw [ci_stochRSI]
  unfold computeIndicators
  split <;> rfl

theorem ci_d (p : Params) (f : Frame) :
    (computeIndicators p f).d
      = rollingApply p.stoch_smooth_d meanList (computeIndicators p f).k := by
  rw [ci_k, ci_stochRSI]
  unfold computeIndicators
  split <;> rfl

theorem ci_basis (p : Params) (f : Frame) :
    (computeIndicators p f).basis
      = rollingApply p.bbLen meanList (f.close.map some) := by
  unfold computeIndicators
  split <;> rfl

theorem ci_std (p : Params) (f : Frame) :
    (computeIndicators p f).std
      = rollingApply p.bbLen stdList (f.close.map some) := by
  unfold computeIndicators
  split <;> rfl

theorem ci_upperBB (p : Params) (f : Frame) :
    (computeIndicators p f).upperBB
      = List.zipWith (bbUpperCell p.bbMult) (computeIndicators p f).basis
          (computeIndicators p f).std := by
  rw [ci_basis, ci_std]
  unfold computeIndicators
  split <;> rfl

theorem ci_lowerBB (p : Params) (f : Frame) :
    (computeIndicators p f).lowerBB
      = List.zipWith (bbLowerCell p.bbMult) (computeIndicators p f).basis
          (computeIndicators p f).std := by
  rw [ci_basis, ci_std]
  unfold computeIndicators
  split <;> rfl

theorem ci_volAvg (p : Params) (f : Frame) :
    (computeIndicators p f).volAvg
      = rollingApply p.volAvg_window meanList (f.volume.map some) := by
  unfold computeIndicators
  split <;> rfl

theorem ci_atr_short (p : Params) (f : Frame) (h : f.close.length < 14) :
    (computeIndicators p f).atr = f.atr := by
  unfold computeIndicators
  rw [if_pos h]

theorem ci_atr_long (p : Params) (f : Frame) (h : 14 ≤ f.close.length) :
    (computeIndicators p f).atr = some (taATR 14 f.high f.low f.close) := by
  unfold computeIndicators
  rw [if_neg (by omega)]

/-! ### Helper lemmas: the pandas `ewm` recurrence -/

theorem ewmGo_map_some (alpha : ℚ) :
    ∀ (xs : List ℚ) (p : ℚ) (cnt : ℕ),
      ewmGo alpha 0 (some p) cnt (xs.map some) = (emaRecGo alpha p xs).map some := by
  intro xs
  induction xs with
  | nil => intro p cnt; rfl
  | cons x rest ih =>
      intro p cnt
      simp only [List.map_cons, ewmGo, emaRecGo, Nat.zero_le, if_pos, List.map]
      exact congrArg _ (ih (alpha * x + (1 - alpha) * p) (cnt + 1))

theorem pdEwm_eq_emaRec (span : ℕ) (xs : List ℚ) :
    pdEwm span xs = (emaRec (2 / ((span : ℚ) + 1)) xs).map some := by
  cases xs with
  | nil => rfl
  | cons c rest =>
      simp only [pdEwm, ewmMean, List.map_cons, ewmGo, emaRec, List.map]
      exact congrArg _ (ewmGo_map_some _ rest c 1)

theorem emaRecGo_length (alpha : ℚ) :
    ∀ (xs : List ℚ) (p : ℚ), (emaRecGo alpha p xs).length = xs.length := by
  intro xs
  induction xs with
  | nil => intro p; rfl
  | cons x rest ih => intro p; simp [emaRecGo, ih]

/-- The recurrence of the seeded EMA list, read through `getD`. -/
theorem emaRecGo_getD (alpha : ℚ) :
    ∀ (rest : List ℚ) (s : ℚ) (i : ℕ), i < rest.length →
      (s :: emaRecGo alpha s rest).getD (i + 1) 0
        = alpha * rest.getD i 0 + (1 - alpha) * (s :: emaRecGo alpha s rest).getD i 0 := by
  intro rest
  induction rest with
  | nil => intro s i hi; simp at hi
  | cons r rs ih =>
      intro s i hi
      cases i with
      | zero => simp [emaRecGo]
      | succ j =>
          have hj : j < rs.length := by
            simpa using Nat.lt_of_succ_lt_succ hi
          have step := ih (alpha * r + (1 - alpha) * s) j hj
          simpa [emaRecGo, List.getD_cons_succ] using step

theorem emaRec_recurrence (alpha : ℚ) (xs : List ℚ) (i : ℕ) (h : i + 1 < xs.length) :
    (emaRec alpha xs).getD (i + 1) 0
      = alpha * xs.getD (i + 1) 0 + (1 - alpha) * (emaRec alpha xs).getD i 0 := by
  cases xs with
  | nil => simp at h
  | cons c rest =>
      have hi : i < rest.length := by simpa using Nat.lt_of_succ_lt_succ h
      simpa [emaRec, List.getD_cons_succ] using emaRecGo_getD alpha rest c i hi

theorem emaRec_head (alpha : ℚ) (xs : List ℚ) :
    (emaRec alpha xs).getD 0 0 = xs.getD 0 0 := by
  cases xs <;> rfl

/-! ### Helper lemmas: signal conditions -/

theorem ogt_isSome {a b : Option ℚ} (h : ogt a b = true) :
    a.isSome = true ∧ b.isSome = true := by
  cases a <;> cases b <;> simp_all [ogt]

theorem olt_isSome {a b : Option ℚ} (h : olt a b = true) :
    a.isSome = true ∧ b.isSome = true := by
  cases a <;> cases b <;> simp_all [olt]

theorem longCondition_true_somes {p : Params} {r : IndicatorRow}
    (h : longCondition p r = true) :
    r.emaFast.isSome = true ∧ r.emaSlow.isSome = true ∧ r.macdLine.isSome = true ∧
    r.signalLine.isSome = true ∧ r.macdHist.isSome = true ∧ r.rsi.isSome = true ∧
    r.k.isSome = true ∧ r.d.isSome = true ∧ r.basis.isSome = true ∧
    r.volAvg.isSome = true := by
  simp only [longCondition, Bool.and_eq_true] at h
  obtain ⟨⟨⟨⟨⟨⟨⟨⟨h1, h2⟩, h3⟩, h4⟩, h5⟩, h6⟩, h7⟩, h8⟩, _⟩ := h
  exact ⟨(ogt_isSome h1).2, (ogt_isSome h2).2, (ogt_isSome h3).1,
    (ogt_isSome h3).2, (ogt_isSome h4).1, (ogt_isSome h5).1,
    (ogt_isSome h6).1, (ogt_isSome h6).2, (ogt_isSome h7).2,
    (ogt_isSome h8).2⟩

theorem shortCondition_true_somes {p : Params} {r : IndicatorRow}
    (h : shortCondition p r = true) :
    r.emaFast.isSome = true ∧ r.emaSlow.isSome = true ∧ r.macdLine.isSome = true ∧
    r.signalLine.isSome = true ∧ r.macdHist.isSome = true ∧ r.rsi.isSome = true ∧
    r.k.isSome = true ∧ r.d.isSome = true ∧ r.basis.isSome = true ∧
    r.volAvg.isSome = true := by
  simp only [shortCondition, Bool.and_eq_true] at h
  obtain ⟨⟨⟨⟨⟨⟨⟨⟨h1, h2⟩, h3⟩, h4⟩, h5⟩, h6⟩, h7⟩, h8⟩, _⟩ := h
  exact ⟨(olt_isSome h1).2, (olt_isSome h2).2, (olt_isSome h3).1,
    (olt_isSome h3).2, (olt_isSome h4).1, (olt_isSome h5).1,
    (olt_isSome h6).1, (olt_isSome h6).2, (olt_isSome h7).2,
    (ogt_isSome h8).2⟩

theorem conds_false_of_rowMissing {p : Params} {r : IndicatorRow}
    (h : rowMissing r) :
    longCondition p r = false ∧ shortCondition p r = false := by
  constructor
  · cases hl : longCondition p r
    · rfl
    · exfalso
      have hs := longCondition_true_somes hl
      rcases h with h | h | h | h | h | h | h | h | h | h <;> simp_all
  · cases hs : shortCondition p r
    · rfl
    · exfalso
      have hsom := shortCondition_true_somes hs
      rcases h with h | h | h | h | h | h | h | h | h | h <;> simp_all

theorem latestRow_fields {f : Frame} {r : IndicatorRow}
    (h : latestRow f = some r) :
    r.emaFast = olastQ f.emaFast ∧ r.emaSlow = olastQ f.emaSlow ∧
    r.macdLine = olastQ f.macdLine ∧ r.signalLine = olastQ f.signalLine ∧
    r.macdHist = olastQ f.macdHist ∧ r.rsi = olastQ f.rsi ∧
    r.k = olastQ f.k ∧ r.d = olastQ f.d ∧ r.basis = olastQ f.basis ∧
    r.volAvg = olastQ f.volAvg := by
  unfold latestRow at h
  cases hc : f.close.getLast? with
  | none => rw [hc] at h; exact absurd h (by simp)
  | some c =>
      rw [hc] at h
      have := Option.some.inj h
      subst this
      exact ⟨rfl, rfl, rfl, rfl, rfl, rfl, rfl, rfl, rfl, rfl⟩

theorem check_signals_false_of_missing (p : Params) (f : Frame)
    (h : frameMissing f) : check_signals p (some f) = (false, false) := by
  cases hr : latestRow f with
  | none => simp [check_signals, hr]
  | some r =>
      have hf := latestRow_fields hr
      obtain ⟨e1, e2, e3, e4, e5, e6, e7, e8, e9, e10⟩ := hf
      have hm : rowMissing r := by
        unfold rowMissing
        unfold frameMissing at h
        rw [e1, e2, e3, e4, e5, e6, e7, e8, e9, e10]
        exact h
      have hc := conds_false_of_rowMissing (p := p) hm
      simp [check_signals, hr, hc.1, hc.2]

/-! ### Claim theorems -/

/-- C3: under the default thresholds (`rsi_threshold_long = 55`,
`rsi_threshold_short = 45`) no Indicator Row satisfies the long
condition and the short condition simultaneously. -/
theorem C3_long_short_mutually_exclusive (r : IndicatorRow) :
    (longCondition defaultParams r && shortCondition defaultParams r) = false := by
  cases hef : r.emaFast with
  | none =>
      have hl : longCondition defaultParams r = false := by
        simp [longCondition, hef, ogt]
      simp [hl]
  | some e =>
      by_cases hlt : e < r.close
      · have hs : shortCondition defaultParams r = false := by
          have hgt : ¬(r.close < e) := lt_asymm hlt
          simp [shortCondition, hef, olt, hgt]
        simp [hs]
      · have hl : longCondition defaultParams r = false := by
          simp [longCondition, hef, ogt, hlt]
        simp [hl]

/-- C4: when both boolean signals are raised, `main` takes the
`if longSignal:` branch (line 303): the dispatch result equals the
long-only dispatch, and the emitted verdict is Long; the short branch is
never reached. -/
theorem C4_long_precedence (last_close atr_value tpMult slMult lev : ℚ) :
    signalDispatch true true last_close atr_value tpMult slMult lev
        = signalDispatch true false last_close atr_value tpMult slMult lev ∧
    (signalDispatch true true last_close atr_value tpMult slMult lev).map
        TradeSignal.verdict = some Verdict.long := by
  constructor <;> simp [signalDispatch]

/-- C5: for every emitted alert with positive latest close `P`, the
targets follow the ATR formulas of `main` (lines 304-309 and 320-325):
long take-profit `P + A * tpMult`, stop-loss `P - A * slMult`, expected
return `((takeProfit - P) / P) * leverage * 100`; mirrored for short. -/
theorem C5_target_formulas (longSignal shortSignal : Bool)
    (P A tpM slM lev : ℚ) (hP : 0 < P) (out : TradeSignal)
    (h : signalDispatch longSignal shortSignal P A tpM slM lev = some out) :
    (out.verdict = Verdict.long →
        out.takeProfit = P + A * tpM ∧ out.stopLoss = P - A * slM ∧
        out.expectedReturnPct = ((out.takeProfit - P) / P) * lev * 100) ∧
    (out.verdict = Verdict.short →
        out.takeProfit = P - A * tpM ∧ out.stopLoss = P + A * slM ∧
        out.expectedReturnPct = ((P - out.takeProfit) / P) * lev * 100) := by
  cases longSignal with
  | true =>
      simp only [signalDispatch, if_true, Option.some.injEq] at h
      subst h
      constructor
      · intro _
        exact ⟨rfl, rfl, rfl⟩
      · intro hv
        exact absurd hv (by simp)
  | false =>
      cases shortSignal with
      | true =>
          simp only [signalDispatch, Bool.false_eq_true, if_false, if_true,
            Option.some.injEq] at h
          subst h
          constructor
          · intro hv
            exact absurd hv (by simp)
          · intro _
            exact ⟨rfl, rfl, rfl⟩
      | false =>
          simp [signalDispatch] at h

/-- C5 witness: the long dispatch at close 100, ATR 2, multipliers 2 and
1, leverage 10 produces take-profit 104, stop-loss 98, expected return
40 percent. -/
theorem C5_target_formulas_w :
    ((0 : ℚ) < 100 ∧
      signalDispatch true false 100 2 2 1 10 = some sigOut) ∧
    ((sigOut.verdict = Verdict.long →
        sigOut.takeProfit = 100 + 2 * 2 ∧ sigOut.stopLoss = 100 - 2 * 1 ∧
        sigOut.expectedReturnPct = ((sigOut.takeProfit - 100) / 100) * 10 * 100) ∧
     (sigOut.verdict = Verdict.short →
        sigOut.takeProfit = 100 - 2 * 2 ∧ sigOut.stopLoss = 100 + 2 * 1 ∧
        sigOut.expectedReturnPct = ((100 - sigOut.takeProfit) / 100) * 10 * 100)) :=
  ⟨⟨by norm_num, by decide⟩,
   C5_target_formulas true false 100 2 2 1 10 (by norm_num) sigOut (by decide)⟩

/-- C2: when the latest close is not strictly positive (the line 293
safeguard) or any required indicator field of the latest row is missing
(insufficient history), the evaluation of a symbol produces no verdict
and no targets: `mainEval` returns `none`, so no numeric garbage can
reach the alert. -/
theorem C2_none_on_bad_row (p : Params) (f : Frame)
    (h : (f.close.getLast?).getD 0 ≤ 0 ∨ frameMissing f) :
    mainEval p f = none := by
  by_cases hc : (f.close.getLast?).getD 0 ≤ 0
  · simp [mainEval, hc]
  · rcases h with h | h
    · exact absurd h hc
    · have hcs := check_signals_false_of_missing p f h
      simp [mainEval, hc, hcs, signalDispatch]

/-- C2 witness: a one-row frame with the `d` column unavailable is
evaluated to no verdict. -/
theorem C2_none_on_bad_row_w :
    ((missingRowFrame.close.getLast?).getD 0 ≤ 0 ∨ frameMissing missingRowFrame) ∧
    mainEval defaultParams missingRowFrame = none :=
  ⟨Or.inr (by decide),
   C2_none_on_bad_row defaultParams missingRowFrame (Or.inr (by decide))⟩

/-- C10: when the frame has no `atr` column, `main` (line 298) uses
2 percent of the latest close as the volatility value, so every emitted
alert carries targets computed from `last_close * 0.02`. -/
theorem C10_atr_fallback (p : Params) (f : Frame) (out : TradeSignal)
    (hatr : f.atr = none) (h : mainEval p f = some out) :
    (out.verdict = Verdict.long →
        out.takeProfit
          = (f.close.getLast?).getD 0
            + (f.close.getLast?).getD 0 * (2 / 100) * p.take_profit_atr_multiplier ∧
        out.stopLoss
          = (f.close.getLast?).getD 0
            - (f.close.getLast?).getD 0 * (2 / 100) * p.stop_loss_atr_multiplier) ∧
    (out.verdict = Verdict.short →
        out.takeProfit
          = (f.close.getLast?).getD 0
            - (f.close.getLast?).getD 0 * (2 / 100) * p.take_profit_atr_multiplier ∧
        out.stopLoss
          = (f.close.getLast?).getD 0
            + (f.close.getLast?).getD 0 * (2 / 100) * p.stop_loss_atr_multiplier) := by
  simp only [mainEval, hatr] at h
  by_cases hc : (f.close.getLast?).getD 0 ≤ 0
  · rw [if_pos hc] at h
    exact absurd h (by simp)
  · rw [if_neg hc] at h
    cases hl : (check_signals p (some f)).1 with
    | true =>
        rw [hl] at h
        simp only [signalDispatch, if_true, Option.some.injEq] at h
        subst h
        constructor
        · intro _
          exact ⟨rfl, rfl⟩
        · intro hv
          exact absurd hv (by simp)
    | false =>
        rw [hl] at h
        cases hs : (check_signals p (some f)).2 with
        | true =>
            rw [hs] at h
            simp only [signalDispatch, Bool.false_eq_true, if_false, if_true,
              Option.some.injEq] at h
            subst h
            constructor
            · intro hv
              exact absurd hv (by simp)
            · intro _
              exact ⟨rfl, rfl⟩
        | false =>
            rw [hs] at h
            simp [signalDispatch] at h

/-- C10 witness: on the spec section 8 long scenario without an `atr`
column the alert targets are `110 + (110 * 0.02) * 2 = 114.4` and
`110 - (110 * 0.02) * 1 = 107.8`. -/
theorem C10_atr_fallback_w :
    (longRowFrame.atr = none ∧ mainEval defaultParams longRowFrame = some fallbackOut) ∧
    ((fallbackOut.verdict = Verdict.long →
        fallbackOut.takeProfit
          = (longRowFrame.close.getLast?).getD 0
            + (longRowFrame.close.getLast?).getD 0 * (2 / 100)
              * defaultParams.take_profit_atr_multiplier ∧
        fallbackOut.stopLoss
          = (longRowFrame.close.getLast?).getD 0
            - (longRowFrame.close.getLast?).getD 0 * (2 / 100)
              * defaultParams.stop_loss_atr_multiplier) ∧
     (fallbackOut.verdict = Verdict.short →
        fallbackOut.takeProfit
          = (longRowFrame.close.getLast?).getD 0
            - (longRowFrame.close.getLast?).getD 0 * (2 / 100)
              * defaultParams.take_profit_atr_multiplier ∧
        fallbackOut.stopLoss
          = (longRowFrame.close.getLast?).getD 0
            + (longRowFrame.close.getLast?).getD 0 * (2 / 100)
              * defaultParams.stop_loss_atr_multiplier)) :=
  ⟨⟨rfl, by decide⟩,
   C10_atr_fallback defaultParams longRowFrame fallbackOut rfl (by decide)⟩

/-- C7: every rolling-window column computed at source lines 144-161
(`rsi_min`, `rsi_max`, `k`, `d`, `basis`, `std`, the derived Bollinger
bands, `volAvg`) is entirely missing-valued whenever the bar series is
shorter than the window of that column; no cell is a numeric zero or a
biased estimate from fewer observations. -/
theorem C7_short_series_all_undefined (p : Params) (bars : List Bar) :
    (bars.length < p.stochLen →
        allNone (computeIndicators p (mkFrame bars)).rsi_min ∧
        allNone (computeIndicators p (mkFrame bars)).rsi_max) ∧
    (bars.length < p.stoch_smooth_k →
        allNone (computeIndicators p (mkFrame bars)).k) ∧
    (bars.length < p.stoch_smooth_d →
        allNone (computeIndicators p (mkFrame bars)).d) ∧
    (bars.length < p.bbLen →
        allNone (computeIndicators p (mkFrame bars)).basis ∧
        allNone (computeIndicators p (mkFrame bars)).std ∧
        allNone (computeIndicators p (mkFrame bars)).upperBB ∧
        allNone (computeIndicators p (mkFrame bars)).lowerBB) ∧
    (bars.length < p.volAvg_window →
        allNone (computeIndicators p (mkFrame bars)).volAvg) := by
  have hclose : (mkFrame bars).close.length = bars.length := by
    simp [mkFrame]
  have hvol : (mkFrame bars).volume.length = bars.length := by
    simp [mkFrame]
  refine ⟨?_, ?_, ?_, ?_, ?_⟩
  · intro h
    constructor
    · rw [ci_rsi_min]
      exact rollingApply_allNone _ _ _ (by rw [rsiCol_length, hclose]; exact h)
    · rw [ci_rsi_max]
      exact rollingApply_allNone _ _ _ (by rw [rsiCol_length, hclose]; exact h)
  · intro h
    rw [ci_k, ci_stochRSI]
    refine rollingApply_allNone _ _ _ ?_
    simp only [zip3With_length, rollingApply_length, rsiCol_length, hclose]
    omega
  · intro h
    rw [ci_d, ci_k, ci_stochRSI]
    refine rollingApply_allNone _ _ _ ?_
    simp only [rollingApply_length, zip3With_length, rsiCol_length, hclose]
    omega
  · intro h
    have hb : allNone (computeIndicators p (mkFrame bars)).basis := by
      rw [ci_basis]
      exact rollingApply_allNone _ _ _ (by rw [List.length_map, hclose]; exact h)
    have hstd : allNone (computeIndicators p (mkFrame bars)).std := by
      rw [ci_std]
      exact rollingApply_allNone _ _ _ (by rw [List.length_map, hclose]; exact h)
    refine ⟨hb, hstd, ?_, ?_⟩
    · rw [ci_upperBB]
      exact zipWith_upper_allNone _ _ _ hb
    · rw [ci_lowerBB]
      exact zipWith_lower_allNone _ _ _ hb
  · intro h
    rw [ci_volAvg]
    exact rollingApply_allNone _ _ _ (by rw [List.length_map, hvol]; exact h)

/-- C7 witness: on a two-bar series every one of the rolling columns of
the default configuration is entirely undefined. -/
theorem C7_short_series_all_undefined_w :
    (bars2.length < defaultParams.stochLen ∧
     bars2.length < defaultParams.stoch_smooth_k ∧
     bars2.length < defaultParams.stoch_smooth_d ∧
     bars2.length < defaultParams.bbLen ∧
     bars2.length < defaultParams.volAvg_window) ∧
    (allNone (computeIndicators defaultParams (mkFrame bars2)).rsi_min ∧
     allNone (computeIndicators defaultParams (mkFrame bars2)).k ∧
     allNone (computeIndicators defaultParams (mkFrame bars2)).d ∧
     allNone (computeIndicators defaultParams (mkFrame bars2)).basis ∧
     allNone (computeIndicators defaultParams (mkFrame bars2)).volAvg) :=
  ⟨by decide,
   ⟨((C7_short_series_all_undefined defaultParams bars2).1 (by decide)).1,
    (C7_short_series_all_undefined defaultParams bars2).2.1 (by decide),
    (C7_short_series_all_undefined defaultParams bars2).2.2.1 (by decide),
    ((C7_short_series_all_undefined defaultParams bars2).2.2.2.1 (by decide)).1,
    (C7_short_series_all_undefined defaultParams bars2).2.2.2.2 (by decide)⟩⟩

/-- C8: the fast and slow EMA columns (source lines 125-126) are exactly
the spec recurrence with smoothing factor `alpha = 2 / (span + 1)`:
seeded by the first close, and
`ema[i+1] = alpha * close[i+1] + (1 - alpha) * ema[i]`. -/
theorem C8_ema_recurrence (p : Params) (bars : List Bar) (i : ℕ)
    (h : i + 1 < bars.length) :
    (computeIndicators p (mkFrame bars)).emaFast
      = (emaRec (2 / ((p.emaFastLen : ℚ) + 1)) (bars.map Bar.close)).map some ∧
    (computeIndicators p (mkFrame bars)).emaSlow
      = (emaRec (2 / ((p.emaSlowLen : ℚ) + 1)) (bars.map Bar.close)).map some ∧
    (emaRec (2 / ((p.emaFastLen : ℚ) + 1)) (bars.map Bar.close)).getD 0 0
      = (bars.map Bar.close).getD 0 0 ∧
    (emaRec (2 / ((p.emaFastLen : ℚ) + 1)) (bars.map Bar.close)).getD (i + 1) 0
      = (2 / ((p.emaFastLen : ℚ) + 1)) * (bars.map Bar.close).getD (i + 1) 0
        + (1 - 2 / ((p.emaFastLen : ℚ) + 1))
          * (emaRec (2 / ((p.emaFastLen : ℚ) + 1)) (bars.map Bar.close)).getD i 0 ∧
    (emaRec (2 / ((p.emaSlowLen : ℚ) + 1)) (bars.map Bar.close)).getD (i + 1) 0
      = (2 / ((p.emaSlowLen : ℚ) + 1)) * (bars.map Bar.close).getD (i + 1) 0
        + (1 - 2 / ((p.emaSlowLen : ℚ) + 1))
          * (emaRec (2 / ((p.emaSlowLen : ℚ) + 1)) (bars.map Bar.close)).getD i 0 := by
  have hlen : i + 1 < (bars.map Bar.close).length := by simpa using h
  refine ⟨?_, ?_, emaRec_head _ _, emaRec_recurrence _ _ i hlen,
    emaRec_recurrence _ _ i hlen⟩
  · rw [ci_emaFast]
    exact pdEwm_eq_emaRec p.emaFastLen (bars.map Bar.close)
  · rw [ci_emaSlow]
    exact pdEwm_eq_emaRec p.emaSlowLen (bars.map Bar.close)

/-- C8 witness: the recurrence instantiated on the three-bar fixture and
the default spans. -/
theorem C8_ema_recurrence_w :
    (0 + 1 < bars3.length) ∧
    ((computeIndicators defaultParams (mkFrame bars3)).emaFast
        = (emaRec (2 / ((defaultParams.emaFastLen : ℚ) + 1)) (bars3.map Bar.close)).map some ∧
     (computeIndicators defaultParams (mkFrame bars3)).emaSlow
        = (emaRec (2 / ((defaultParams.emaSlowLen : ℚ) + 1)) (bars3.map Bar.close)).map some ∧
     (emaRec (2 / ((defaultParams.emaFastLen : ℚ) + 1)) (bars3.map Bar.close)).getD 0 0
        = (bars3.map Bar.close).getD 0 0 ∧
     (emaRec (2 / ((defaultParams.emaFastLen : ℚ) + 1)) (bars3.map Bar.close)).getD (0 + 1) 0
        = (2 / ((defaultParams.emaFastLen : ℚ) + 1)) * (bars3.map Bar.close).getD (0 + 1) 0
          + (1 - 2 / ((defaultParams.emaFastLen : ℚ) + 1))
            * (emaRec (2 / ((defaultParams.emaFastLen : ℚ) + 1)) (bars3.map Bar.close)).getD 0 0 ∧
     (emaRec (2 / ((defaultParams.emaSlowLen : ℚ) + 1)) (bars3.map Bar.close)).getD (0 + 1) 0
        = (2 / ((defaultParams.emaSlowLen : ℚ) + 1)) * (bars3.map Bar.close).getD (0 + 1) 0
          + (1 - 2 / ((defaultParams.emaSlowLen : ℚ) + 1))
            * (emaRec (2 / ((defaultParams.emaSlowLen : ℚ) + 1)) (bars3.map Bar.close)).getD 0 0) :=
  ⟨by decide, C8_ema_recurrence defaultParams bars3 0 (by decide)⟩

/-- C9: the two call boundaries are total.  `check_signals` answers
`(False, False)` for a `None` frame and for an empty frame instead of
raising; `compute_indicators` returns a frame on every input: when the
series is shorter than the fixed 14-bar ATR window the `ta` constructor
raises internally and the `except` hands back the frame with every
column assigned before that point (full-length EMA, RSI, Bollinger and
volume columns, no `atr` column), and otherwise the `atr` column is
present. -/
theorem C9_totality :
    (∀ p : Params, check_signals p none = (false, false)) ∧
    (∀ (p : Params) (f : Frame), f.close = [] →
        check_signals p (some f) = (false, false)) ∧
    (∀ (p : Params) (f : Frame), f.atr = none → f.close.length < 14 →
        (computeIndicators p f).atr = none ∧
        (computeIndicators p f).emaFast.length = f.close.length ∧
        (computeIndicators p f).rsi.length = f.close.length ∧
        (computeIndicators p f).basis.length = f.close.length ∧
        (computeIndicators p f).volAvg.length = f.volume.length) ∧
    (∀ (p : Params) (f : Frame), 14 ≤ f.close.length →
        ∃ col, (computeIndicators p f).atr = some col) := by
  refine ⟨fun p => rfl, ?_, ?_, ?_⟩
  · intro p f hc
    simp [check_signals, latestRow, hc]
  · intro p f hatr hlen
    refine ⟨?_, ?_, ?_, ?_, ?_⟩
    · rw [ci_atr_short p f hlen, hatr]
    · rw [ci_emaFast, pdEwm_length]
    · rw [ci_rsi, rsiCol_length]
    · rw [ci_basis, rollingApply_length, List.length_map]
    · rw [ci_volAvg, rollingApply_length, List.length_map]
  · intro p f hlen
    exact ⟨_, ci_atr_long p f hlen⟩

/-- C9 witness: the boundary cases at concrete inputs — a `None` frame,
an empty frame, a two-bar frame (ATR step fails, `atr` column absent)
and a fourteen-bar frame (`atr` column present). -/
theorem C9_totality_w :
    check_signals defaultParams none = (false, false) ∧
    (emptyFrame.close = [] ∧
      check_signals defaultParams (some emptyFrame) = (false, false)) ∧
    ((mkFrame bars2).atr = none ∧ (mkFrame bars2).close.length < 14 ∧
      (computeIndicators defaultParams (mkFrame bars2)).atr = none) ∧
    (14 ≤ (mkFrame (constBars 14)).close.length ∧
      ∃ col, (computeIndicators defaultParams (mkFrame (constBars 14))).atr = some col) :=
  ⟨C9_totality.1 defaultParams,
   ⟨rfl, C9_totality.2.1 defaultParams emptyFrame rfl⟩,
   ⟨rfl, by decide,
    (C9_totality.2.2.1 defaultParams (mkFrame bars2) rfl (by decide)).1⟩,
   ⟨by decide, C9_totality.2.2.2 defaultParams (mkFrame (constBars 14)) (by decide)⟩⟩

/-- C6 (amended): `compute_indicators` performs no input validation at
all — the timestamp column never influences any computed column, so a
non-monotonic (or arbitrary) timestamp ordering yields exactly the
result of the same rows with any other timestamps, instead of an
`InvalidInput` failure. -/
theorem C6_no_input_validation (p : Params) (f : Frame) (ts : List ℤ) :
    computeIndicators p { f with timestamp := ts }
      = { computeIndicators p f with timestamp := ts } := by
  cases f
  simp only [computeIndicators]
  split <;> rfl

/-- C6 counterexample: on a fourteen-bar series whose timestamps are not
monotonically increasing, the spec (section 6) requires the
`InvalidInput` failure, but the source computes and returns every
indicator column (the `atr` column included) as if the input were
well-formed. -/
theorem C6_no_input_validation_cex :
    strictlyIncreasing (mkFrame badTsBars).timestamp = false ∧
    computeIndicatorsSpec defaultParams (mkFrame badTsBars)
      = Except.error CIError.invalidInput ∧
    (computeIndicators defaultParams (mkFrame badTsBars)).atr.isSome = true ∧
    (computeIndicators defaultParams (mkFrame badTsBars)).emaFast.length = 14 := by
  refine ⟨by decide, ?_, by decide, by decide⟩
  have hbad : ((mkFrame badTsBars).close.isEmpty
      || !(strictlyIncreasing (mkFrame badTsBars).timestamp)) = true := by decide
  simp [computeIndicatorsSpec, hbad]

set_option maxRecDepth 100000 in
/-- C1: the stochastic-RSI cell as the spec defines it (and as source
lines 146-150 evidently intended before the statement was mangled into
a parse error): on a constant-price series the rolling RSI maximum
equals the rolling RSI minimum on the latest row and the raw stochRSI
value there is the guarded 0, not a division error. -/
theorem C1_stochRSI_guard :
    (computeIndicators defaultParams (mkFrame (constBars 27))).rsi_min.getLast?
      = some (some 100) ∧
    (computeIndicators defaultParams (mkFrame (constBars 27))).rsi_max.getLast?
      = some (some 100) ∧
    (computeIndicators defaultParams (mkFrame (constBars 27))).stochRSI.getLast?
      = some (some 0) := by
  refine ⟨by decide, by decide, by decide⟩
